import Mathlib

/-!
# Verification of the anonymous-messaging backend core

Shallow embedding of the request → conversation → payment-gated messaging
core of the backend (Conversation / MessageRequest / Message / PurchasedPack
models and their controllers), together with proofs and refutations of the
specification's claims about it.

User ids are modelled as `Nat`, timestamps as `Nat` epochs, and money
amounts (paisa) as `Nat`.  Mongoose documents become plain structures;
instance methods that mutate-and-save become pure `State → State`
functions (or `Except`-valued functions where the source throws), and
controller request handlers become functions from the relevant state plus
an environment of externally-queried facts to a result.
-/

namespace Bibbly

/-! ## Conversation data model (Conversation model, participantSchema / conversationSchema) -/

/-- One element of `conversationSchema.participants` (participantSchema).
`Date` fields that no claim inspects are reduced to presence flags. -/
structure Participant where
  user : Nat
  isRevealed : Bool := false
  unreadCount : Nat := 0
  isMuted : Bool := false
  isArchived : Bool := false
  hasLastReadAt : Bool := false
  deriving Repr, DecidableEq

/-- The `lastMessagePayment` subdocument of a conversation. -/
structure PaymentInfo where
  paymentId : String
  orderId : String
  amountPaisa : Nat
  deriving Repr, DecidableEq

/-- The `Conversation` document (fields the claims are about). -/
structure Conversation where
  participants : List Participant
  initiator : Nat
  isAnonymous : Bool := true
  messageCount : Nat := 0
  initiatorMessageCount : Nat := 0
  initiatorPaidCycles : Nat := 0
  lastMessagePayment : Option PaymentInfo := none
  deriving Repr, DecidableEq

/-- Embeds `conversationSchema.methods.getParticipantData`: first participant whose
user id matches. -/
def Conversation.getParticipantData (c : Conversation) (userId : Nat) : Option Participant :=
  c.participants.find? (fun p => p.user == userId)

/-- Embeds `conversationSchema.methods.getOtherParticipant`: first participant whose
user id differs. -/
def Conversation.getOtherParticipant (c : Conversation) (userId : Nat) : Option Participant :=
  c.participants.find? (fun p => p.user != userId)

/-- Embeds `conversationSchema.methods.isUserRevealed`. -/
def Conversation.isUserRevealed (c : Conversation) (userId : Nat) : Bool :=
  match c.getParticipantData userId with
  | some p => p.isRevealed
  | none => false

/-- The `participants.findIndex` + in-place field assignment pattern used by
the conversation instance methods: apply `f` to the first participant whose
user id matches, leave everything else alone (a missing participant leaves
the list unchanged, matching the `participantIndex !== -1` guards). -/
def updateParticipant (ps : List Participant) (userId : Nat)
    (f : Participant → Participant) : List Participant :=
  match ps with
  | [] => []
  | p :: rest =>
    if p.user == userId then f p :: rest
    else p :: updateParticipant rest userId f

/-- Embeds `conversationSchema.methods.revealIdentity`: set `isRevealed` on the
caller's participant row, then recompute `isAnonymous` only when every
participant is revealed.  Throws when the caller is not a participant. -/
def Conversation.revealIdentity (c : Conversation) (userId : Nat) :
    Except String Conversation :=
  match c.participants.find? (fun p => p.user == userId) with
  | none => .error "User is not a participant in this conversation"
  | some _ =>
    let parts := updateParticipant c.participants userId
      (fun p => { p with isRevealed := true })
    let allRevealed := parts.all (fun p => p.isRevealed)
    .ok { c with
            participants := parts,
            isAnonymous := if allRevealed then false else c.isAnonymous }

/-- Embeds `conversationSchema.methods.updateLastMessage`: bump `messageCount`;
bump `initiatorMessageCount` only when the sender is the initiator and the
initiator's participant row is not revealed; bump every other participant's
`unreadCount`. -/
def Conversation.updateLastMessage (c : Conversation) (senderId : Nat) : Conversation :=
  let c1 := { c with messageCount := c.messageCount + 1 }
  let isInitiator := c.initiator == senderId
  let c2 :=
    if isInitiator then
      let initiatorRevealed :=
        match c.participants.find? (fun p => p.user == senderId) with
        | some p => p.isRevealed
        | none => false
      if !initiatorRevealed then
        { c1 with initiatorMessageCount := c1.initiatorMessageCount + 1 }
      else c1
    else c1
  let bumped := c2.participants.map
    (fun p => if p.user == senderId then p else { p with unreadCount := p.unreadCount + 1 })
  { c2 with participants := bumped }

/-- Embeds `conversationSchema.methods.initiatorNeedsToPay`. -/
def Conversation.initiatorNeedsToPay (c : Conversation) (freeMessageLimit : Nat) : Bool :=
  let initiatorRevealed :=
    match c.participants.find? (fun p => p.user == c.initiator) with
    | some p => p.isRevealed
    | none => false
  if initiatorRevealed then false
  else
    let allowedMessages := freeMessageLimit * (c.initiatorPaidCycles + 1)
    c.initiatorMessageCount ≥ allowedMessages

/-- Embeds `conversationSchema.methods.recordMessagePayment`: unconditionally
increment `initiatorPaidCycles` and overwrite `lastMessagePayment`. -/
def Conversation.recordMessagePayment (c : Conversation)
    (paymentId orderId : String) (amountPaisa : Nat) : Conversation :=
  { c with
      initiatorPaidCycles := c.initiatorPaidCycles + 1,
      lastMessagePayment := some ⟨paymentId, orderId, amountPaisa⟩ }

/-- Embeds `conversationSchema.methods.markAsRead` (per-participant read state). -/
def Conversation.markAsRead (c : Conversation) (userId : Nat) : Conversation :=
  let parts := updateParticipant c.participants userId
    (fun p => { p with hasLastReadAt := true, unreadCount := 0 })
  { c with participants := parts }

/-- Embeds `conversationSchema.methods.muteForUser`. -/
def Conversation.muteForUser (c : Conversation) (userId : Nat) : Conversation :=
  let parts := updateParticipant c.participants userId (fun p => { p with isMuted := true })
  { c with participants := parts }

/-- Embeds `conversationSchema.methods.archiveForUser`. -/
def Conversation.archiveForUser (c : Conversation) (userId : Nat) : Conversation :=
  let parts := updateParticipant c.participants userId (fun p => { p with isArchived := true })
  { c with participants := parts }

/-! ## Message payment verification (purchase controller, `verifyMessagePayment`) -/

/-- Result of `getPaymentDetails(paymentId)` from the payment provider. -/
structure PaymentDetails where
  status : String
  amount : Nat
  deriving Repr, DecidableEq

/-- Externally-queried facts the `verifyMessagePayment` handler consults:
the `unrevealedChatPayment` app-config block and the provider responses. -/
structure PaymentEnv where
  isEnabled : Bool
  pricePerMessageInPaisa : Nat
  freeMessageLimit : Nat
  signatureValid : Bool
  details : PaymentDetails
  deriving Repr, DecidableEq

/-- Embeds `verifyMessagePayment` (purchase controller): after the guards pass, the
payment is applied via `recordMessagePayment` with no duplicate check of any
kind — the stored `lastMessagePayment.paymentId/orderId` is never consulted. -/
def verifyMessagePayment (c : Conversation) (userId : Nat)
    (orderId paymentId : String) (env : PaymentEnv) : Except String Conversation :=
  if (c.participants.find? (fun p => p.user == userId)).isNone then
    .error "Conversation not found"
  else if c.initiator != userId then
    .error "Only the initiator can pay for messages"
  else if !env.isEnabled then
    .error "Unrevealed chat payment is not enabled"
  else if !env.signatureValid then
    .error "Payment verification failed. Please try again."
  else if env.details.status != "captured" && env.details.status != "authorized" then
    .error "Payment not successful"
  else if env.details.amount != env.pricePerMessageInPaisa then
    .error "Payment amount mismatch"
  else
    .ok (c.recordMessagePayment paymentId orderId env.pricePerMessageInPaisa)

/-! ## The two send paths (message controller `sendMessage`, socket `send_message`) -/

/-- The `unrevealedChatPayment` config slice the HTTP send path reads. -/
structure MsgConfig where
  isEnabled : Bool := true
  freeMessageLimit : Nat := 100
  deriving Repr, DecidableEq

/-- Errors the HTTP send path can return; `paymentRequired` carries the
fields of the 402 payload that the claims name. -/
inductive SendError where
  | notFound
  | forbidden
  | paymentRequired (currentCount allowedMessages freeMessageLimit paidCycles : Nat)
  deriving Repr, DecidableEq

/-- A durably written message (the fields the claims inspect). -/
structure SentMessage where
  sender : Nat
  recipient : Nat
  content : String
  deriving Repr, DecidableEq

/-- The HTTP send path (message controller `sendMessage`): participant and
block checks, then — only when the sender is the initiator and the initiator
is unrevealed and the payment feature is enabled — the payment gate
`currentCount >= freeMessageLimit * (paidCycles + 1)`, evaluated BEFORE the
message is created; on success the message is created and
`updateLastMessage` is applied. -/
def sendMessageHttp (c : Conversation) (userId : Nat) (content : String)
    (blocked : Bool) (cfg : MsgConfig) : Except SendError (Conversation × SentMessage) :=
  if (c.participants.find? (fun p => p.user == userId)).isNone then
    .error .notFound
  else
    match c.getOtherParticipant userId with
    | none => .error .notFound
    | some other =>
      if blocked then .error .forbidden
      else
        let isInitiator := c.initiator == userId
        let isInitiatorRevealed :=
          match c.getParticipantData c.initiator with
          | some p => p.isRevealed
          | none => false
        let currentCount := c.initiatorMessageCount
        let paidCycles := c.initiatorPaidCycles
        let allowedMessages := cfg.freeMessageLimit * (paidCycles + 1)
        if isInitiator && !isInitiatorRevealed && cfg.isEnabled &&
            decide (currentCount ≥ allowedMessages) then
          .error (.paymentRequired currentCount allowedMessages cfg.freeMessageLimit paidCycles)
        else
          .ok (c.updateLastMessage userId, ⟨userId, other.user, content⟩)

/-- The socket send path (`send_message` handler): participant check, then
the message is created and `updateLastMessage` applied — there is no payment
gate on this path. -/
def socketSendMessage (c : Conversation) (userId : Nat) (content : String) :
    Except String (Conversation × SentMessage) :=
  if (c.participants.find? (fun p => p.user == userId)).isNone then
    .error "Conversation not found"
  else
    match c.getOtherParticipant userId with
    | none => .error "Failed to send message"
    | some other =>
      .ok (c.updateLastMessage userId, ⟨userId, other.user, content⟩)

/-! ## MessageRequest data model (MessageRequest model, messageRequestSchema) -/

inductive ReqStatus where
  | pending
  | accepted
  | rejected
  | cancelled
  | expired
  deriving Repr, DecidableEq

/-- The `MessageRequest` document (fields the claims are about). -/
structure MessageRequest where
  sender : Nat
  recipient : Nat
  isAnonymous : Bool := true
  status : ReqStatus := .pending
  expiresAt : Nat
  conversation : Option Nat := none
  deriving Repr, DecidableEq

/-- the `messageRequestSchema` pre-save hook: a still-pending request whose
`expiresAt` has passed is flipped to `expired` on save. -/
def preSaveExpire (r : MessageRequest) (now : Nat) : MessageRequest :=
  if r.status == .pending && r.expiresAt < now then { r with status := .expired } else r

/-- Embeds `messageRequestSchema.statics.existsBetweenUsers`: an active (pending or
accepted) request between the two users, in either direction. -/
def existsBetweenUsers (db : List MessageRequest) (u1 u2 : Nat) : Bool :=
  db.any (fun r =>
    ((r.sender == u1 && r.recipient == u2) || (r.sender == u2 && r.recipient == u1)) &&
    (r.status == .pending || r.status == .accepted))

/-! ## `sendRequest` (message request controller) -/

inductive SendReqError where
  | selfSend
  | userNotFound
  | blockedPair
  | conflict
  | dailyLimit
  | forbiddenPrefs
  deriving Repr, DecidableEq

/-- Externally-queried facts `sendRequest` consults.  `packBalance` is the
sender's purchased-pack balance: it is carried here to state claims about
it, but — exactly as in the controller — `sendRequest` never reads it. -/
structure SendReqEnv where
  recipientActive : Bool := true
  blocked : Bool := false
  dailyFreeLimit : Nat
  todayRequests : Nat
  packBalance : Nat := 0
  allowAnonymous : Bool := true
  prefsAllow : Bool := true
  deriving Repr, DecidableEq

/-- The document `MessageRequest.create` inserts (status defaults to
`pending`). -/
def mkRequest (senderId recipientId : Nat) (isAnonymous : Bool)
    (expiresAt : Nat) : MessageRequest :=
  { sender := senderId, recipient := recipientId,
    isAnonymous := isAnonymous, expiresAt := expiresAt }

/-- Embeds `sendRequest` (message request controller): guard chain in source
order — self-send, recipient existence, block, duplicate active request,
daily free limit (`countTodayRequestsBySender >= dailyFreeRequests`, with no
fallback to purchased packs), anonymous-message preference, restricted
message preferences — then the request is created as `pending`. -/
def sendRequest (db : List MessageRequest) (senderId recipientId : Nat)
    (isAnonymous : Bool) (expiresAt : Nat) (env : SendReqEnv) :
    List MessageRequest × Option SendReqError :=
  if senderId == recipientId then (db, some .selfSend)
  else if !env.recipientActive then (db, some .userNotFound)
  else if env.blocked then (db, some .blockedPair)
  else if existsBetweenUsers db senderId recipientId then (db, some .conflict)
  else if env.todayRequests ≥ env.dailyFreeLimit then (db, some .dailyLimit)
  else if isAnonymous && !env.allowAnonymous then (db, some .forbiddenPrefs)
  else if !env.prefsAllow then (db, some .forbiddenPrefs)
  else (db ++ [mkRequest senderId recipientId isAnonymous expiresAt], none)

/-- Decision shape of `canSendRequest` (purchase controller): the client-facing quota check.
Unlike `sendRequest`, it does fall back to the purchased-pack balance. -/
inductive CanSendReason where
  | premium
  | free
  | purchased
  | limitReached
  deriving Repr, DecidableEq

/-- Decision core of `canSendRequest` (purchase controller). -/
def canSendRequest (isPremium : Bool) (dailyFreeLimit todayUsed packBalance : Nat) :
    Bool × CanSendReason :=
  if isPremium then (true, .premium)
  else if todayUsed < dailyFreeLimit then (true, .free)
  else if packBalance > 0 then (true, .purchased)
  else (false, .limitReached)

/-! ## `acceptRequest` (message request controller) -/

inductive AcceptError where
  | notFound
  | expired
  deriving Repr, DecidableEq

/-- Build the conversation `acceptRequest` creates: initiator side revealed
iff the request was not anonymous, recipient side revealed, `isAnonymous`
copied from the request; then the request's `initialMessage` is written as
the first message via `updateLastMessage`. -/
def conversationFromRequest (r : MessageRequest) : Conversation :=
  let created : Conversation :=
    { participants := [{ user := r.sender, isRevealed := !r.isAnonymous },
                       { user := r.recipient, isRevealed := true }],
      initiator := r.sender,
      isAnonymous := r.isAnonymous }
  created.updateLastMessage r.sender

/-- Embeds `acceptRequest` (message request controller): the lookup requires the
caller to be the recipient of a still-`pending` request; an `expiresAt` in
the past flips the request to `expired` and returns an error with no
conversation created; otherwise the conversation is created, the initial
message written, and the request transitions to `accepted`
(`messageRequestSchema.methods.accept`). -/
def acceptRequest (r : MessageRequest) (byUser : Nat) (now : Nat) (convId : Nat) :
    MessageRequest × Option Conversation × Option AcceptError :=
  if !(r.recipient == byUser && r.status == .pending) then
    (r, none, some .notFound)
  else if r.expiresAt < now then
    ({ r with status := .expired }, none, some .expired)
  else
    ({ r with status := .accepted, conversation := some convId },
     some (conversationFromRequest r), none)

/-! ## Request-registry state machine (for the per-pair invariant) -/

/-- Apply `f` to the request at index `i` (the by-id updates of the
accept/reject/cancel handlers). -/
def modifyAt (db : List MessageRequest) (i : Nat)
    (f : MessageRequest → MessageRequest) : List MessageRequest :=
  match db, i with
  | [], _ => []
  | r :: rest, 0 => f r :: rest
  | r :: rest, i + 1 => r :: modifyAt rest i f

/-- One registry operation: the request mutations reachable through the
message request controller and the expiry sweep
(`messageRequestSchema.statics.expireOldRequests`). -/
inductive ReqOp where
  | send (senderId recipientId : Nat) (isAnonymous : Bool) (expiresAt : Nat) (env : SendReqEnv)
  | accept (i : Nat) (byUser : Nat) (now : Nat)
  | reject (i : Nat) (byUser : Nat)
  | cancel (i : Nat) (byUser : Nat)
  | expireSweep (now : Nat)

/-- Effect of one registry operation on the request store.  `accept`
mirrors `acceptRequest` (including its lazy expiry), `reject`/`cancel` the
corresponding handlers (recipient-only / sender-only, from `pending`), and
`expireSweep` the bulk update. -/
def applyReqOp (db : List MessageRequest) : ReqOp → List MessageRequest
  | .send s r anon exp env => (sendRequest db s r anon exp env).1
  | .accept i byUser now =>
    modifyAt db i (fun r =>
      if r.recipient == byUser && r.status == .pending then
        if r.expiresAt < now then { r with status := .expired }
        else { r with status := .accepted }
      else r)
  | .reject i byUser =>
    modifyAt db i (fun r =>
      if r.recipient == byUser && r.status == .pending then { r with status := .rejected }
      else r)
  | .cancel i byUser =>
    modifyAt db i (fun r =>
      if r.sender == byUser && r.status == .pending then { r with status := .cancelled }
      else r)
  | .expireSweep now =>
    db.map (fun r =>
      if r.status == .pending && r.expiresAt < now then { r with status := .expired } else r)

/-- Run a sequence of registry operations from a store. -/
def applyReqOps (ops : List ReqOp) (db : List MessageRequest) : List MessageRequest :=
  ops.foldl applyReqOp db

/-- A request is active when `pending` or `accepted`. -/
def isActiveReq (r : MessageRequest) : Bool :=
  r.status == .pending || r.status == .accepted

/-- The request links the unordered pair `{u1, u2}` (either direction). -/
def betweenPair (r : MessageRequest) (u1 u2 : Nat) : Bool :=
  (r.sender == u1 && r.recipient == u2) || (r.sender == u2 && r.recipient == u1)

/-- Number of active requests between an unordered pair. -/
def activeCount (db : List MessageRequest) (u1 u2 : Nat) : Nat :=
  (db.filter (fun r => betweenPair r u1 u2 && isActiveReq r)).length

/-- The per-pair invariant: at most one active request per unordered pair. -/
def pairInvariant (db : List MessageRequest) : Prop :=
  ∀ u1 u2, activeCount db u1 u2 ≤ 1

/-! ## Message delivery status (Message model, socket `mark_read` / `mark_delivered`) -/

inductive DStatus where
  | sent
  | delivered
  | read
  | failed
  deriving Repr, DecidableEq

/-- A `Message` document (fields the delivery-status claims inspect). -/
structure Msg where
  id : Nat
  recipient : Nat
  isRead : Bool := false
  deliveryStatus : DStatus := .sent
  deriving Repr, DecidableEq

/-- Embeds `messageSchema.methods.markAsRead`: guarded by the `isRead` flag. -/
def Msg.markAsRead (m : Msg) : Msg :=
  if !m.isRead then { m with isRead := true, deliveryStatus := .read } else m

/-- Embeds `messageSchema.methods.markAsDelivered`: applies only from `sent`. -/
def Msg.markAsDelivered (m : Msg) : Msg :=
  if m.deliveryStatus == .sent then { m with deliveryStatus := .delivered } else m

/-- One delivery-status operation on the message store: the two instance
methods (applied to one message by id), the socket `mark_read` /
`mark_delivered` batched acknowledgements, and the static
`markAllAsRead`. -/
inductive MsgOp where
  | readOne (id : Nat)
  | deliverOne (id : Nat)
  | markReadBatch (ids : List Nat) (uid : Nat)
  | markDeliveredBatch (ids : List Nat) (uid : Nat)
  | markAllRead (uid : Nat)

/-- Pointwise effect of a delivery-status operation on one message.
`markReadBatch` mirrors the socket `mark_read` `updateMany` (filter: id in
batch and recipient; sets `isRead`/`deliveryStatus: read`);
`markDeliveredBatch` mirrors `mark_delivered` (filter additionally requires
`deliveryStatus: sent`); `markAllRead` mirrors
`messageSchema.statics.markAllAsRead` (filter: recipient and not yet read). -/
def msgStep (op : MsgOp) (m : Msg) : Msg :=
  match op with
  | .readOne id => if m.id == id then m.markAsRead else m
  | .deliverOne id => if m.id == id then m.markAsDelivered else m
  | .markReadBatch ids uid =>
    if ids.contains m.id && m.recipient == uid then
      { m with isRead := true, deliveryStatus := .read }
    else m
  | .markDeliveredBatch ids uid =>
    if ids.contains m.id && m.recipient == uid && m.deliveryStatus == .sent then
      { m with deliveryStatus := .delivered }
    else m
  | .markAllRead uid =>
    if m.recipient == uid && !m.isRead then
      { m with isRead := true, deliveryStatus := .read }
    else m

/-- Effect of one operation on the whole message store. -/
def applyMsgOp (db : List Msg) (op : MsgOp) : List Msg :=
  db.map (msgStep op)

/-- Run a sequence of delivery-status operations on one message. -/
def msgSteps (ops : List MsgOp) (m : Msg) : Msg :=
  ops.foldl (fun m op => msgStep op m) m

/-- Rank of a delivery status along the `sent → delivered → read` chain
(`failed` sits below the chain). -/
def statusRank : DStatus → Nat
  | .failed => 0
  | .sent => 1
  | .delivered => 2
  | .read => 3

/-! ## Purchased request packs (PurchasedPack model) -/

inductive PackStatus where
  | active
  | exhausted
  | expired
  | refunded
  | failed
  deriving Repr, DecidableEq

/-- A `PurchasedPack` document (fields the pack claims inspect).  The list
a draw-down operates on is `getActivePacks` output: the user's `active`,
non-expired packs sorted by `expiresAt` ascending (earliest expiry first),
so the order of the embedded list is that order. -/
structure Pack where
  requestsUsed : Nat := 0
  requestsRemaining : Nat
  status : PackStatus := .active
  deriving Repr, DecidableEq

/-- Embeds `purchasedPackSchema.methods.useRequests`: draws `count` from one pack,
flipping it to `exhausted` when it reaches zero. -/
def Pack.useRequests (p : Pack) (count : Nat) : Except String Pack :=
  if p.status != .active then .error "Pack is not active"
  else if p.requestsRemaining < count then .error "Not enough requests in pack"
  else
    let rem := p.requestsRemaining - count
    .ok { p with
            requestsUsed := p.requestsUsed + count,
            requestsRemaining := rem,
            status := if rem == 0 then .exhausted else p.status }

/-- Loop body of `purchasedPackSchema.statics.useFromPacks`: walk the packs
in list (earliest-expiry) order, drawing `min remaining pack.remaining`
from each and saving each pack as it goes; returns the post-state of the
packs, the count still uncovered, and any error thrown by `useRequests`
(which aborts the loop but keeps the saves already made). -/
def useFromPacksGo : List Pack → Nat → List Pack × Nat × Option String
  | [], remaining => ([], remaining, none)
  | p :: ps, remaining =>
    if remaining == 0 then (p :: ps, 0, none)
    else
      let toUse := min remaining p.requestsRemaining
      match p.useRequests toUse with
      | .error e => (p :: ps, remaining, some e)
      | .ok p' =>
        let rest := useFromPacksGo ps (remaining - toUse)
        (p' :: rest.1, rest.2.1, rest.2.2)

/-- Embeds `purchasedPackSchema.statics.useFromPacks`: after the loop, a positive
uncovered remainder throws `Not enough purchased requests` — but the packs
already drawn from stay drawn (each was saved inside the loop). -/
def useFromPacks (packs : List Pack) (count : Nat) : List Pack × Option String :=
  let res := useFromPacksGo packs count
  match res.2.2 with
  | some e => (res.1, some e)
  | none => if res.2.1 > 0 then (res.1, some "Not enough purchased requests") else (res.1, none)

/-- Total remaining requests across a pack list
(`getTotalRemainingRequests` over the same active set). -/
def totalRemaining (packs : List Pack) : Nat :=
  (packs.map (fun p => p.requestsRemaining)).sum

/-- The fully drawn-down form of a pack: everything remaining consumed and
the pack flipped to `exhausted`. -/
def drainPack (p : Pack) : Pack :=
  { p with
      requestsUsed := p.requestsUsed + p.requestsRemaining,
      requestsRemaining := 0,
      status := .exhausted }

/-! ## Derived notions and concrete states used by the claims -/

/-- The spec's derived-flag invariant:
`isAnonymous == !(participantA.isRevealed && participantB.isRevealed)`,
phrased over the participants list. -/
def anonInvariant (c : Conversation) : Prop :=
  c.isAnonymous = !(c.participants.all (fun p => p.isRevealed))

/-- Iterate the HTTP send path, stopping at the first error. -/
def sendNHttp (uid : Nat) (cfg : MsgConfig) : Nat → Conversation → Except SendError Conversation
  | 0, c => .ok c
  | n + 1, c =>
    match sendMessageHttp c uid "m" false cfg with
    | .ok res => sendNHttp uid cfg n res.1
    | .error e => .error e

/-- A two-party conversation: user 1 is the (unrevealed) initiator and
user 2 the revealed recipient; no messages yet. -/
def convFresh : Conversation :=
  { participants := [{ user := 1 }, { user := 2, isRevealed := true }],
    initiator := 1 }

/-- State of `convFresh` after the initiator has sent 100 messages. -/
def convAfter100 : Conversation :=
  { participants := [{ user := 1 }, { user := 2, isRevealed := true, unreadCount := 100 }],
    initiator := 1,
    messageCount := 100,
    initiatorMessageCount := 100 }

/-- The default message-payment config: limit 100, feature enabled. -/
def cfg100 : MsgConfig := { isEnabled := true, freeMessageLimit := 100 }

/-- A fully valid payment environment for a ₹2 (200 paisa) message payment. -/
def envPay : PaymentEnv :=
  { isEnabled := true,
    pricePerMessageInPaisa := 200,
    freeMessageLimit := 100,
    signatureValid := true,
    details := { status := "captured", amount := 200 } }

/-- Quota environment: free allowance (3) used up, 5 purchased requests
remaining in active packs. -/
def envQuota : SendReqEnv :=
  { dailyFreeLimit := 3, todayRequests := 3, packBalance := 5 }

/-! ## Theorems -/

/-- C3: the payment-need predicate equals the reference formula — when the
initiator's participant row is unrevealed, `initiatorNeedsToPay limit` is
true exactly when `initiatorMessageCount >= limit * (initiatorPaidCycles + 1)`,
and it is false whenever the initiator is revealed, regardless of count. -/
theorem needsToPay_matches_reference_formula (c : Conversation) (limit : Nat)
    (ip : Participant)
    (hfind : c.participants.find? (fun p => p.user == c.initiator) = some ip) :
    (ip.isRevealed = false →
      c.initiatorNeedsToPay limit =
        decide (c.initiatorMessageCount ≥ limit * (c.initiatorPaidCycles + 1))) ∧
    (ip.isRevealed = true → c.initiatorNeedsToPay limit = false) := by
  unfold Conversation.initiatorNeedsToPay
  rw [hfind]
  constructor
  · intro h
    simp [h]
  · intro h
    simp [h]

/-- Witness for C3 at a concrete conversation (unrevealed initiator,
5 messages, limit 3, 0 cycles: payment needed). -/
theorem needsToPay_matches_reference_formula_witness :
    convAfter100.participants.find? (fun p => p.user == convAfter100.initiator) =
      some { user := 1 } ∧
    convAfter100.initiatorNeedsToPay 100 =
      decide (convAfter100.initiatorMessageCount ≥ 100 * (convAfter100.initiatorPaidCycles + 1)) := by
  refine ⟨by decide, ?_⟩
  exact (needsToPay_matches_reference_formula convAfter100 100 { user := 1 } (by decide)).1 rfl

/-- C4 (code bug witness): at a state where the free daily allowance is
used up (3 of 3) but the sender still holds 5 purchased requests,
`sendRequest` rejects with the daily-limit error and creates nothing, while
`canSendRequest` at the very same numbers answers that the user can send,
drawing on the purchased balance. -/
theorem sendRequest_ignores_pack_balance :
    sendRequest [] 1 2 true 1000 envQuota = ([], some .dailyLimit) ∧
    canSendRequest false envQuota.dailyFreeLimit envQuota.todayRequests envQuota.packBalance =
      (true, .purchased) := by
  constructor
  · rfl
  · rfl

/-- C5: accepting a pending request whose `expiresAt` is in the past fails
with the expired error, creates no conversation, and flips the request to
`expired`; from `expired` a further accept only reports not-found and
changes nothing — the state is terminal (the pre-save hook expires the
same way). -/
theorem expired_request_cannot_be_accepted (r : MessageRequest)
    (byUser now convId : Nat)
    (hrec : r.recipient = byUser) (hpend : r.status = .pending)
    (hexp : r.expiresAt < now) :
    acceptRequest r byUser now convId =
      ({ r with status := .expired }, none, some .expired) ∧
    (∀ now' convId',
      acceptRequest { r with status := .expired } byUser now' convId' =
        ({ r with status := .expired }, none, some .notFound)) ∧
    preSaveExpire r now = { r with status := .expired } := by
  refine ⟨?_, ?_, ?_⟩
  · simp [acceptRequest, hrec, hpend, hexp]
  · intro now' convId'
    simp [acceptRequest]
  · simp [preSaveExpire, hpend, hexp]

/-- Witness for C5: a concrete pending request that expired at time 10,
accepted at time 20. -/
theorem expired_request_cannot_be_accepted_witness :
    acceptRequest { sender := 1, recipient := 2, expiresAt := 10 } 2 20 7 =
      ({ sender := 1, recipient := 2, expiresAt := 10, status := .expired },
       none, some .expired) := by
  exact (expired_request_cannot_be_accepted
    { sender := 1, recipient := 2, expiresAt := 10 } 2 20 7 rfl rfl (by decide)).1

/-- C1 counterexample: applying `verifyMessagePayment` twice with the same
`paymentId`/`orderId` on a fresh conversation yields `initiatorPaidCycles = 2`
— the second application is NOT a no-op, because the handler never consults
the stored `lastMessagePayment` before calling `recordMessagePayment`. -/
theorem verifyMessagePayment_double_credits :
    ((verifyMessagePayment convFresh 1 "ordA" "payA" envPay).bind
        (fun c => verifyMessagePayment c 1 "ordA" "payA" envPay)).map
        (fun c => c.initiatorPaidCycles) = .ok 2 ∧
    ((verifyMessagePayment convFresh 1 "ordA" "payA" envPay).bind
        (fun c => verifyMessagePayment c 1 "ordA" "payA" envPay)).map
        (fun c => c.initiatorPaidCycles) ≠ .ok (convFresh.initiatorPaidCycles + 1) := by
  refine ⟨rfl, ?_⟩
  intro h
  rw [show ((verifyMessagePayment convFresh 1 "ordA" "payA" envPay).bind
        (fun c => verifyMessagePayment c 1 "ordA" "payA" envPay)).map
        (fun c => c.initiatorPaidCycles) = .ok 2 from rfl] at h
  simp [convFresh] at h

/-- C1 amended: whenever the verification guards pass (caller is the
initiator and a participant, feature enabled, signature valid, payment
captured/authorized, amount matching), a second `verifyMessagePayment`
call with the same `paymentId` credits a second cycle: the two calls
together increment `initiatorPaidCycles` by exactly 2, and
`lastMessagePayment` merely stores the latest payment metadata. -/
theorem verifyMessagePayment_recredits_duplicate (c : Conversation)
    (userId : Nat) (orderId paymentId : String) (env : PaymentEnv)
    (hpart : (c.participants.find? (fun p => p.user == userId)).isSome)
    (hinit : c.initiator = userId)
    (hen : env.isEnabled = true) (hsig : env.signatureValid = true)
    (hstat : env.details.status = "captured" ∨ env.details.status = "authorized")
    (hamt : env.details.amount = env.pricePerMessageInPaisa) :
    (verifyMessagePayment c userId orderId paymentId env).bind
      (fun c1 => verifyMessagePayment c1 userId orderId paymentId env) =
    .ok { c with
            initiatorPaidCycles := c.initiatorPaidCycles + 2,
            lastMessagePayment :=
              some ⟨paymentId, orderId, env.pricePerMessageInPaisa⟩ } := by
  have hguards : ∀ c' : Conversation,
      (c'.participants.find? (fun p => p.user == userId)).isSome →
      c'.initiator = userId →
      verifyMessagePayment c' userId orderId paymentId env =
        .ok (c'.recordMessagePayment paymentId orderId env.pricePerMessageInPaisa) := by
    intro c' hp hi
    rw [Option.isSome_iff_exists] at hp
    rcases hp with ⟨p, hp⟩
    unfold verifyMessagePayment
    rcases hstat with hs | hs <;> simp [hp, hi, hen, hsig, hs, hamt]
  rw [hguards c hpart hinit]
  simp only [Except.bind]
  rw [hguards (c.recordMessagePayment paymentId orderId env.pricePerMessageInPaisa)
      (by simpa [Conversation.recordMessagePayment] using hpart)
      (by simpa [Conversation.recordMessagePayment] using hinit)]
  simp [Conversation.recordMessagePayment]

/-- Witness for C1's amended theorem: two verifications of payment `payA`
on a fresh conversation end at 2 paid cycles. -/
theorem verifyMessagePayment_recredits_duplicate_witness :
    (convFresh.participants.find? (fun p => p.user == 1)).isSome = true ∧
    (verifyMessagePayment convFresh 1 "ordA" "payA" envPay).bind
      (fun c1 => verifyMessagePayment c1 1 "ordA" "payA" envPay) =
    .ok { convFresh with
            initiatorPaidCycles := convFresh.initiatorPaidCycles + 2,
            lastMessagePayment := some ⟨"payA", "ordA", envPay.pricePerMessageInPaisa⟩ } := by
  refine ⟨rfl, ?_⟩
  exact verifyMessagePayment_recredits_duplicate convFresh 1 "ordA" "payA" envPay
    rfl rfl rfl rfl (Or.inl rfl) rfl

/-- C2 counterexample: with `freeMessageLimit = 100`, `paidCycles = 0` and
the unrevealed initiator already at 100 counted messages (a state where the
payment gate fires), sending through the socket path still succeeds: the
message is written and `initiatorMessageCount` moves to 101 — the socket
`send_message` handler performs no payment check, so not every send path
rejects the 101st send. -/
theorem socket_send_bypasses_payment_gate :
    convAfter100.initiatorNeedsToPay 100 = true ∧
    socketSendMessage convAfter100 1 "hi" =
      .ok (convAfter100.updateLastMessage 1,
           { sender := 1, recipient := 2, content := "hi" }) ∧
    (convAfter100.updateLastMessage 1).initiatorMessageCount = 101 := by
  refine ⟨rfl, rfl, rfl⟩

set_option maxRecDepth 4000 in
/-- C2 amended: on the HTTP send path the scenario holds — from a fresh
conversation (limit 100, 0 cycles, unrevealed initiator) the first 100
sends succeed, the 101st is rejected with a PaymentRequired error carrying
`currentCount = 100` and `allowedMessages = 100`, and the rejection
produces no message and leaves the conversation unchanged; the socket send
path has no payment gate and writes the message anyway. -/
theorem http_send_gate_scenario_A :
    sendNHttp 1 cfg100 100 convFresh = .ok convAfter100 ∧
    sendMessageHttp convAfter100 1 "m" false cfg100 =
      .error (.paymentRequired 100 100 100 0) ∧
    socketSendMessage convAfter100 1 "m" =
      .ok (convAfter100.updateLastMessage 1,
           { sender := 1, recipient := 2, content := "m" }) := by
  refine ⟨?_, rfl, rfl⟩
  rfl

lemma updateLastMessage_isAnonymous (c : Conversation) (s : Nat) :
    (c.updateLastMessage s).isAnonymous = c.isAnonymous := by
  unfold Conversation.updateLastMessage
  cases hin : c.initiator == s
  · simp [hin]
  · cases hf : c.participants.find? (fun p => p.user == s)
    · simp [hin, hf]
    · rename_i p
      cases hrev : p.isRevealed <;> simp [hin, hf, hrev]

lemma updateLastMessage_participants (c : Conversation) (s : Nat) :
    (c.updateLastMessage s).participants =
      c.participants.map
        (fun p => if p.user == s then p else { p with unreadCount := p.unreadCount + 1 }) := by
  unfold Conversation.updateLastMessage
  cases hin : c.initiator == s
  · simp [hin]
  · cases hf : c.participants.find? (fun p => p.user == s)
    · simp [hin, hf]
    · rename_i p
      cases hrev : p.isRevealed <;> simp [hin, hf, hrev]

lemma updateLastMessage_initiatorMessageCount (c : Conversation) (s : Nat) :
    (c.updateLastMessage s).initiatorMessageCount =
      (if (c.initiator == s) && !(c.isUserRevealed s) then c.initiatorMessageCount + 1
       else c.initiatorMessageCount) := by
  unfold Conversation.updateLastMessage Conversation.isUserRevealed
    Conversation.getParticipantData
  cases hin : c.initiator == s
  · simp [hin]
  · cases hf : c.participants.find? (fun p => p.user == s)
    · simp [hin, hf]
    · rename_i p
      cases hrev : p.isRevealed <;> simp [hin, hf, hrev]

/-- C7: `initiatorMessageCount` is incremented by a send exactly when the
sender is the initiator and the initiator-side participant is unrevealed;
read, mute, archive, payment and reveal all leave it unchanged. -/
theorem initiatorMessageCount_increments_only_on_unrevealed_initiator_sends
    (c : Conversation) (senderId userId : Nat) (pid oid : String) (amt : Nat) :
    ((c.updateLastMessage senderId).initiatorMessageCount =
      (if (c.initiator == senderId) && !(c.isUserRevealed senderId)
       then c.initiatorMessageCount + 1 else c.initiatorMessageCount)) ∧
    (c.markAsRead userId).initiatorMessageCount = c.initiatorMessageCount ∧
    (c.muteForUser userId).initiatorMessageCount = c.initiatorMessageCount ∧
    (c.archiveForUser userId).initiatorMessageCount = c.initiatorMessageCount ∧
    (c.recordMessagePayment pid oid amt).initiatorMessageCount = c.initiatorMessageCount ∧
    (∀ c', c.revealIdentity userId = .ok c' →
      c'.initiatorMessageCount = c.initiatorMessageCount) := by
  refine ⟨updateLastMessage_initiatorMessageCount c senderId, rfl, rfl, rfl, rfl, ?_⟩
  intro c' h
  unfold Conversation.revealIdentity at h
  cases hf : c.participants.find? (fun p => p.user == userId) <;> rw [hf] at h
  · exact Except.noConfusion h
  · injection h with h'
    rw [← h']

/-- Witness for C7: on a fresh conversation, a send by the unrevealed
initiator increments the counter, and revealing leaves it unchanged. -/
theorem initiatorMessageCount_increment_witness :
    (convFresh.updateLastMessage 1).initiatorMessageCount =
      convFresh.initiatorMessageCount + 1 ∧
    convFresh.revealIdentity 1 =
      .ok { participants := [{ user := 1, isRevealed := true },
                             { user := 2, isRevealed := true }],
            initiator := 1, isAnonymous := false } ∧
    ({ participants := [{ user := 1, isRevealed := true },
                        { user := 2, isRevealed := true }],
       initiator := 1, isAnonymous := false } : Conversation).initiatorMessageCount =
      convFresh.initiatorMessageCount := by
  refine ⟨?_, rfl, ?_⟩
  · rw [(initiatorMessageCount_increments_only_on_unrevealed_initiator_sends
      convFresh 1 1 "" "" 0).1]
    rfl
  · exact (initiatorMessageCount_increments_only_on_unrevealed_initiator_sends
      convFresh 1 1 "" "" 0).2.2.2.2.2 _ rfl

lemma totalRemaining_cons (p : Pack) (ps : List Pack) :
    totalRemaining (p :: ps) = p.requestsRemaining + totalRemaining ps := by
  simp [totalRemaining]

lemma totalRemaining_drained (packs : List Pack) :
    totalRemaining (packs.map drainPack) = 0 := by
  induction packs with
  | nil => rfl
  | cons p ps ih => simp [List.map_cons, totalRemaining_cons, drainPack, ih]

lemma useFromPacksGo_drains (packs : List Pack) (count : Nat)
    (hact : ∀ p ∈ packs, p.status = .active)
    (hlt : totalRemaining packs < count) :
    useFromPacksGo packs count =
      (packs.map drainPack, count - totalRemaining packs, none) := by
  induction packs generalizing count with
  | nil => simp [useFromPacksGo, totalRemaining]
  | cons p ps ih =>
    have hp : p.status = .active := hact p (List.mem_cons_self p ps)
    have hps : ∀ q ∈ ps, q.status = .active := fun q hq => hact q (List.mem_cons_of_mem p hq)
    rw [totalRemaining_cons] at hlt
    have hc0 : (count == 0) = false := by
      simp only [beq_eq_false_iff_ne, ne_eq]
      omega
    have hmin : min count p.requestsRemaining = p.requestsRemaining := by omega
    have hlt' : totalRemaining ps < count - p.requestsRemaining := by omega
    unfold useFromPacksGo
    rw [hc0]
    simp only [Bool.false_eq_true, if_false, hmin]
    rw [show p.useRequests p.requestsRemaining = .ok (drainPack p) by
      simp [Pack.useRequests, hp, drainPack]]
    rw [ih (count - p.requestsRemaining) hps hlt']
    refine Prod.ext rfl (Prod.ext ?_ rfl)
    simp only [totalRemaining_cons]
    omega

/-- C10: when the total remaining balance across the user's active packs is
positive but below the requested count, `useFromPacks` throws
`Not enough purchased requests` only after draining every pack in
earliest-expiry order — each pack ends exhausted with zero remaining, so
the failed call has changed the user's pack balance. -/
theorem useFromPacks_consumes_before_throwing (packs : List Pack) (count : Nat)
    (hact : ∀ p ∈ packs, p.status = .active)
    (hpos : 0 < totalRemaining packs)
    (hlt : totalRemaining packs < count) :
    useFromPacks packs count =
      (packs.map drainPack, some "Not enough purchased requests") ∧
    totalRemaining (packs.map drainPack) = 0 ∧
    totalRemaining (packs.map drainPack) ≠ totalRemaining packs ∧
    (∀ q ∈ packs.map drainPack, q.status = .exhausted ∧ q.requestsRemaining = 0) := by
  refine ⟨?_, totalRemaining_drained packs, ?_, ?_⟩
  · unfold useFromPacks
    rw [useFromPacksGo_drains packs count hact hlt]
    have : 0 < count - totalRemaining packs := by omega
    simp [this]
  · rw [totalRemaining_drained packs]
    omega
  · intro q hq
    rcases List.mem_map.mp hq with ⟨p, _, hpq⟩
    rw [← hpq]
    exact ⟨rfl, rfl⟩

/-- Witness for C10: two active packs holding 2 + 1 remaining requests,
asked for 5: the call fails yet drains both packs. -/
theorem useFromPacks_consumes_before_throwing_witness :
    useFromPacks [{ requestsRemaining := 2 }, { requestsUsed := 1, requestsRemaining := 1 }] 5 =
      ([{ requestsUsed := 2, requestsRemaining := 0, status := .exhausted },
        { requestsUsed := 2, requestsRemaining := 0, status := .exhausted }],
       some "Not enough purchased requests") := by
  have h := (useFromPacks_consumes_before_throwing
    [{ requestsRemaining := 2 }, { requestsUsed := 1, requestsRemaining := 1 }] 5
    (by intro p hp; simp at hp; rcases hp with h | h <;> simp [h])
    (by decide) (by decide)).1
  rw [h]
  rfl

lemma statusRank_le_read (s : DStatus) : statusRank s ≤ statusRank .read := by
  cases s <;> decide

lemma msgStep_rank_mono (op : MsgOp) (m : Msg) :
    statusRank m.deliveryStatus ≤ statusRank (msgStep op m).deliveryStatus := by
  cases op with
  | readOne id =>
    simp only [msgStep, Msg.markAsRead]
    split
    · split
      · exact statusRank_le_read _
      · exact Nat.le_refl _
    · exact Nat.le_refl _
  | deliverOne id =>
    simp only [msgStep, Msg.markAsDelivered]
    split
    · split
      · next h =>
        rw [show m.deliveryStatus = .sent from by simpa using h]
        exact Nat.le_succ 1
      · exact Nat.le_refl _
    · exact Nat.le_refl _
  | markReadBatch ids uid =>
    simp only [msgStep]
    split
    · exact statusRank_le_read _
    · exact Nat.le_refl _
  | markDeliveredBatch ids uid =>
    simp only [msgStep]
    split
    · next h =>
      have hs : m.deliveryStatus = .sent := by
        simp only [Bool.and_eq_true, beq_iff_eq] at h
        exact h.2
      rw [hs]
      exact Nat.le_succ 1
    · exact Nat.le_refl _
  | markAllRead uid =>
    simp only [msgStep]
    split
    · exact statusRank_le_read _
    · exact Nat.le_refl _

lemma msgSteps_rank_mono (ops : List MsgOp) (m : Msg) :
    statusRank m.deliveryStatus ≤ statusRank (msgSteps ops m).deliveryStatus := by
  induction ops generalizing m with
  | nil => exact Nat.le_refl _
  | cons op ops ih =>
    exact Nat.le_trans (msgStep_rank_mono op m) (ih (msgStep op m))

lemma applyMsgOps_pointwise (ops : List MsgOp) (db : List Msg) :
    List.foldl applyMsgOp db ops = db.map (msgSteps ops) := by
  induction ops generalizing db with
  | nil =>
    rw [show msgSteps [] = fun m : Msg => m from rfl, List.map_id']
    rfl
  | cons op ops ih =>
    simp only [List.foldl_cons, applyMsgOp, ih, List.map_map]
    rfl

lemma rank_two_le (s : DStatus) (h : 2 ≤ statusRank s) :
    s = .delivered ∨ s = .read := by
  cases s
  · exact absurd h (by decide)
  · exact Or.inl rfl
  · exact Or.inr rfl
  · exact absurd h (by decide)

lemma rank_three_le (s : DStatus) (h : 3 ≤ statusRank s) : s = .read := by
  cases s
  · exact absurd h (by decide)
  · exact absurd h (by decide)
  · exact rfl
  · exact absurd h (by decide)

/-- C9: per-message delivery status moves only forward along
`sent → delivered → read` — across any sequence of the single and batched
read/delivered acknowledgements, a `delivered` message can only stay
`delivered` or become `read`, a `read` message stays `read`; the batched
`mark_delivered` touches only messages still at `sent`, and the batched
`mark_read` never moves the status of an already-`read` message (an
already fully read message is left untouched).  `applyMsgOp` over the
store acts pointwise through `msgSteps`. -/
theorem delivery_status_never_regresses (ops : List MsgOp) (db : List Msg)
    (m : Msg) (ids : List Nat) (uid : Nat) :
    (List.foldl applyMsgOp db ops = db.map (msgSteps ops)) ∧
    (m.deliveryStatus = .delivered →
      (msgSteps ops m).deliveryStatus = .delivered ∨
      (msgSteps ops m).deliveryStatus = .read) ∧
    (m.deliveryStatus = .read → (msgSteps ops m).deliveryStatus = .read) ∧
    (m.deliveryStatus ≠ .sent → msgStep (.markDeliveredBatch ids uid) m = m) ∧
    (m.deliveryStatus = .read →
      (msgStep (.markReadBatch ids uid) m).deliveryStatus = .read) ∧
    (m.isRead = true → m.deliveryStatus = .read →
      msgStep (.markReadBatch ids uid) m = m) := by
  refine ⟨applyMsgOps_pointwise ops db, ?_, ?_, ?_, ?_, ?_⟩
  · intro h
    apply rank_two_le
    have hmono := msgSteps_rank_mono ops m
    rw [h] at hmono
    exact hmono
  · intro h
    apply rank_three_le
    have hmono := msgSteps_rank_mono ops m
    rw [h] at hmono
    exact hmono
  · intro h
    simp only [msgStep]
    split
    · next hc =>
      exfalso
      simp only [Bool.and_eq_true, beq_iff_eq] at hc
      exact h hc.2
    · rfl
  · intro h
    simp only [msgStep]
    split
    · rfl
    · exact h
  · intro hr hs
    simp only [msgStep]
    split
    · cases m
      simp_all
    · rfl

/-- Witness for C9: a delivered message targeted by a batched `mark_read`
acknowledgement moves forward (to `read`) and never back. -/
theorem delivery_status_never_regresses_witness :
    (msgSteps [MsgOp.markReadBatch [5] 2]
        { id := 5, recipient := 2, deliveryStatus := .delivered }).deliveryStatus =
      .delivered ∨
    (msgSteps [MsgOp.markReadBatch [5] 2]
        { id := 5, recipient := 2, deliveryStatus := .delivered }).deliveryStatus =
      .read := by
  exact (delivery_status_never_regresses [MsgOp.markReadBatch [5] 2] []
    { id := 5, recipient := 2, deliveryStatus := .delivered } [5] 2).2.1 rfl

lemma all_revealed_map (l : List Participant) (f : Participant → Participant)
    (hf : ∀ p, (f p).isRevealed = p.isRevealed) :
    (l.map f).all (fun p => p.isRevealed) = l.all (fun p => p.isRevealed) := by
  induction l with
  | nil => rfl
  | cons p ps ih => simp [List.all_cons, hf, ih]

lemma all_revealed_updateParticipant (l : List Participant) (uid : Nat)
    (f : Participant → Participant) (hf : ∀ p, (f p).isRevealed = p.isRevealed) :
    (updateParticipant l uid f).all (fun p => p.isRevealed) =
      l.all (fun p => p.isRevealed) := by
  induction l with
  | nil => rfl
  | cons p ps ih =>
    unfold updateParticipant
    cases h : p.user == uid <;> simp [List.all_cons, hf, ih]

lemma all_revealed_after_reveal (l : List Participant) (uid : Nat)
    (h : l.all (fun p => p.isRevealed) = true) :
    (updateParticipant l uid (fun p => { p with isRevealed := true })).all
      (fun p => p.isRevealed) = true := by
  induction l with
  | nil => rfl
  | cons p ps ih =>
    simp only [List.all_cons, Bool.and_eq_true] at h
    unfold updateParticipant
    cases hu : p.user == uid <;> simp [List.all_cons, h.1, h.2, ih h.2]

/-- C8: the derived flag `isAnonymous == !(pA.isRevealed && pB.isRevealed)`
holds for the conversation created at accept and is preserved by reveal,
send, read, mute, archive and payment recording; for a two-participant
list the `all`-form of the invariant is exactly the spec's formula. -/
theorem isAnonymous_matches_reveal_state (r : MessageRequest) (c : Conversation)
    (userId senderId : Nat) (pid oid : String) (amt : Nat) (a b : Participant) :
    anonInvariant (conversationFromRequest r) ∧
    (anonInvariant c → ∀ c', c.revealIdentity userId = .ok c' → anonInvariant c') ∧
    (anonInvariant c → anonInvariant (c.updateLastMessage senderId)) ∧
    (anonInvariant c → anonInvariant (c.markAsRead userId)) ∧
    (anonInvariant c → anonInvariant (c.muteForUser userId)) ∧
    (anonInvariant c → anonInvariant (c.archiveForUser userId)) ∧
    (anonInvariant c → anonInvariant (c.recordMessagePayment pid oid amt)) ∧
    (c.participants = [a, b] → anonInvariant c →
      c.isAnonymous = !(a.isRevealed && b.isRevealed)) := by
  refine ⟨?_, ?_, ?_, ?_, ?_, ?_, ?_, ?_⟩
  · unfold anonInvariant
    simp only [conversationFromRequest]
    rw [updateLastMessage_isAnonymous, updateLastMessage_participants,
        all_revealed_map _ _ (fun p => by split <;> rfl)]
    cases r.isAnonymous <;> rfl
  · intro hinv c' h
    unfold Conversation.revealIdentity at h
    cases hf : c.participants.find? (fun p => p.user == userId) <;> rw [hf] at h
    · exact Except.noConfusion h
    · simp only [Except.ok.injEq] at h
      rw [← h]
      unfold anonInvariant at hinv ⊢
      cases hall : (updateParticipant c.participants userId
          (fun p => { p with isRevealed := true })).all (fun p => p.isRevealed)
      · have hcall : c.participants.all (fun p => p.isRevealed) = false := by
          cases hcl : c.participants.all (fun p => p.isRevealed)
          · rfl
          · have := all_revealed_after_reveal c.participants userId hcl
            rw [this] at hall
            exact Bool.noConfusion hall
        rw [hcall] at hinv
        simp [hall, hinv]
      · simp [hall]
  · intro hinv
    unfold anonInvariant at hinv ⊢
    rw [updateLastMessage_isAnonymous, updateLastMessage_participants,
        all_revealed_map _ _ (fun p => by split <;> rfl)]
    exact hinv
  · intro hinv
    unfold anonInvariant at hinv ⊢
    unfold Conversation.markAsRead
    rw [all_revealed_updateParticipant c.participants userId
      (fun p => { p with hasLastReadAt := true, unreadCount := 0 }) (fun p => rfl)]
    exact hinv
  · intro hinv
    unfold anonInvariant at hinv ⊢
    unfold Conversation.muteForUser
    rw [all_revealed_updateParticipant c.participants userId
      (fun p => { p with isMuted := true }) (fun p => rfl)]
    exact hinv
  · intro hinv
    unfold anonInvariant at hinv ⊢
    unfold Conversation.archiveForUser
    rw [all_revealed_updateParticipant c.participants userId
      (fun p => { p with isArchived := true }) (fun p => rfl)]
    exact hinv
  · intro hinv
    exact hinv
  · intro hp hinv
    unfold anonInvariant at hinv
    rw [hp] at hinv
    simpa using hinv

/-- Witness for C8: the invariant holds for a conversation freshly created
from an anonymous request, and it is preserved through the reveal of the
initiator on `convFresh`. -/
theorem isAnonymous_matches_reveal_state_witness :
    anonInvariant (conversationFromRequest { sender := 1, recipient := 2, expiresAt := 5 }) ∧
    anonInvariant { participants := [{ user := 1, isRevealed := true },
                                     { user := 2, isRevealed := true }],
                    initiator := 1, isAnonymous := false } := by
  constructor
  · exact (isAnonymous_matches_reveal_state
      { sender := 1, recipient := 2, expiresAt := 5 } convFresh 1 1 "" "" 0
      { user := 0 } { user := 0 }).1
  · exact (isAnonymous_matches_reveal_state
      { sender := 1, recipient := 2, expiresAt := 5 } convFresh 1 1 "" "" 0
      { user := 0 } { user := 0 }).2.1 rfl _ rfl

lemma activeCount_cons (x : MessageRequest) (l : List MessageRequest) (u1 u2 : Nat) :
    activeCount (x :: l) u1 u2 =
      (if betweenPair x u1 u2 && isActiveReq x then 1 else 0) + activeCount l u1 u2 := by
  unfold activeCount
  rw [List.filter_cons]
  split
  · next h => simp [h, Nat.add_comm]
  · next h => simp [h]

lemma activeCount_append (l1 l2 : List MessageRequest) (u1 u2 : Nat) :
    activeCount (l1 ++ l2) u1 u2 = activeCount l1 u1 u2 + activeCount l2 u1 u2 := by
  unfold activeCount
  rw [List.filter_append, List.length_append]

lemma reqWeight_le (x : MessageRequest) (f : MessageRequest → MessageRequest) (u1 u2 : Nat)
    (hs : (f x).sender = x.sender) (hr : (f x).recipient = x.recipient)
    (hact : isActiveReq (f x) = true → isActiveReq x = true) :
    (if betweenPair (f x) u1 u2 && isActiveReq (f x) then 1 else 0 : Nat) ≤
      (if betweenPair x u1 u2 && isActiveReq x then 1 else 0) := by
  have hbp : betweenPair (f x) u1 u2 = betweenPair x u1 u2 := by
    unfold betweenPair
    rw [hs, hr]
  by_cases h1 : (betweenPair (f x) u1 u2 && isActiveReq (f x)) = true
  · have h2 : (betweenPair x u1 u2 && isActiveReq x) = true := by
      simp only [Bool.and_eq_true] at h1 ⊢
      exact ⟨hbp ▸ h1.1, hact h1.2⟩
    simp [h1, h2]
  · simp [h1]

lemma activeCount_modifyAt_le (db : List MessageRequest) (i : Nat)
    (f : MessageRequest → MessageRequest) (u1 u2 : Nat)
    (hs : ∀ r, (f r).sender = r.sender) (hr : ∀ r, (f r).recipient = r.recipient)
    (hact : ∀ r, isActiveReq (f r) = true → isActiveReq r = true) :
    activeCount (modifyAt db i f) u1 u2 ≤ activeCount db u1 u2 := by
  induction db generalizing i with
  | nil => exact Nat.le_refl _
  | cons x l ih =>
    cases i with
    | zero =>
      rw [show modifyAt (x :: l) 0 f = f x :: l from rfl, activeCount_cons, activeCount_cons]
      exact Nat.add_le_add_right (reqWeight_le x f u1 u2 (hs x) (hr x) (hact x)) _
    | succ i =>
      rw [show modifyAt (x :: l) (i + 1) f = x :: modifyAt l i f from rfl,
          activeCount_cons, activeCount_cons]
      exact Nat.add_le_add_left (ih i) _

lemma activeCount_map_le (db : List MessageRequest)
    (f : MessageRequest → MessageRequest) (u1 u2 : Nat)
    (hs : ∀ r, (f r).sender = r.sender) (hr : ∀ r, (f r).recipient = r.recipient)
    (hact : ∀ r, isActiveReq (f r) = true → isActiveReq r = true) :
    activeCount (db.map f) u1 u2 ≤ activeCount db u1 u2 := by
  induction db with
  | nil => exact Nat.le_refl _
  | cons x l ih =>
    rw [List.map_cons, activeCount_cons, activeCount_cons]
    exact Nat.add_le_add (reqWeight_le x f u1 u2 (hs x) (hr x) (hact x)) ih

lemma existsBetween_false_iff (db : List MessageRequest) (u1 u2 : Nat) :
    existsBetweenUsers db u1 u2 = false ↔ activeCount db u1 u2 = 0 := by
  induction db with
  | nil => simp [existsBetweenUsers, activeCount]
  | cons x l ih =>
    rw [show existsBetweenUsers (x :: l) u1 u2 =
          ((betweenPair x u1 u2 && isActiveReq x) || existsBetweenUsers l u1 u2) from rfl,
        activeCount_cons]
    cases hw : (betweenPair x u1 u2 && isActiveReq x)
    · simpa using ih
    · simp

lemma activeCount_symm (db : List MessageRequest) (u1 u2 : Nat) :
    activeCount db u1 u2 = activeCount db u2 u1 := by
  unfold activeCount
  congr 1
  apply List.filter_congr
  intro r _
  unfold betweenPair
  rw [Bool.or_comm]

lemma sendRequest_preserves_invariant (db : List MessageRequest)
    (s r : Nat) (anon : Bool) (exp : Nat) (env : SendReqEnv)
    (hinv : pairInvariant db) :
    pairInvariant (sendRequest db s r anon exp env).1 := by
  unfold sendRequest
  split
  · exact hinv
  split
  · exact hinv
  split
  · exact hinv
  split
  · exact hinv
  next hex =>
  split
  · exact hinv
  split
  · exact hinv
  split
  · exact hinv
  intro u1 u2
  rw [show ((db ++ [mkRequest s r anon exp], (none : Option SendReqError))).1 =
      db ++ [mkRequest s r anon exp] from rfl,
    activeCount_append, activeCount_cons]
  have hzero : activeCount db s r = 0 :=
    (existsBetween_false_iff db s r).mp (Bool.not_eq_true _ ▸ hex)
  cases hw : (betweenPair (mkRequest s r anon exp) u1 u2 &&
      isActiveReq (mkRequest s r anon exp))
  · have hle := hinv u1 u2
    unfold activeCount at hle ⊢
    simp only [hw, Bool.false_eq_true, if_false, List.filter_nil, List.length_nil]
    omega
  · have hbp : betweenPair (mkRequest s r anon exp) u1 u2 = true := by
      simp only [Bool.and_eq_true] at hw
      exact hw.1
    unfold betweenPair mkRequest at hbp
    simp only [Bool.or_eq_true, Bool.and_eq_true, beq_iff_eq] at hbp
    have hdb : activeCount db u1 u2 = 0 := by
      rcases hbp with ⟨h1, h2⟩ | ⟨h1, h2⟩
      · rw [← h1, ← h2]
        exact hzero
      · rw [← h1, ← h2]
        rw [activeCount_symm]
        exact hzero
    rw [hdb]
    simp [activeCount]

lemma applyReqOp_preserves (db : List MessageRequest) (op : ReqOp)
    (hinv : pairInvariant db) : pairInvariant (applyReqOp db op) := by
  cases op with
  | send s r anon exp env =>
    exact sendRequest_preserves_invariant db s r anon exp env hinv
  | accept i byUser now =>
    intro u1 u2
    refine Nat.le_trans (activeCount_modifyAt_le db i _ u1 u2 ?_ ?_ ?_) (hinv u1 u2)
    · intro x
      split
      · split <;> rfl
      · rfl
    · intro x
      split
      · split <;> rfl
      · rfl
    · intro x hx
      by_cases hg : (x.recipient == byUser && x.status == ReqStatus.pending) = true
      · simp only [Bool.and_eq_true, beq_iff_eq] at hg
        simp [isActiveReq, hg.2]
      · rw [if_neg hg] at hx
        exact hx
  | reject i byUser =>
    intro u1 u2
    refine Nat.le_trans (activeCount_modifyAt_le db i _ u1 u2 ?_ ?_ ?_) (hinv u1 u2)
    · intro x
      split <;> rfl
    · intro x
      split <;> rfl
    · intro x hx
      by_cases hg : (x.recipient == byUser && x.status == ReqStatus.pending) = true
      · simp only [Bool.and_eq_true, beq_iff_eq] at hg
        simp [isActiveReq, hg.2]
      · rw [if_neg hg] at hx
        exact hx
  | cancel i byUser =>
    intro u1 u2
    refine Nat.le_trans (activeCount_modifyAt_le db i _ u1 u2 ?_ ?_ ?_) (hinv u1 u2)
    · intro x
      split <;> rfl
    · intro x
      split <;> rfl
    · intro x hx
      by_cases hg : (x.sender == byUser && x.status == ReqStatus.pending) = true
      · simp only [Bool.and_eq_true, beq_iff_eq] at hg
        simp [isActiveReq, hg.2]
      · rw [if_neg hg] at hx
        exact hx
  | expireSweep now =>
    intro u1 u2
    refine Nat.le_trans (activeCount_map_le db _ u1 u2 ?_ ?_ ?_) (hinv u1 u2)
    · intro x
      split <;> rfl
    · intro x
      split <;> rfl
    · intro x hx
      by_cases hg : (x.status == ReqStatus.pending && decide (x.expiresAt < now)) = true
      · rw [if_pos hg] at hx
        simp [isActiveReq] at hx
      · rw [if_neg hg] at hx
        exact hx

lemma applyReqOps_preserves (ops : List ReqOp) (db : List MessageRequest)
    (hinv : pairInvariant db) : pairInvariant (applyReqOps ops db) := by
  induction ops generalizing db with
  | nil => exact hinv
  | cons op ops ih => exact ih _ (applyReqOp_preserves db op hinv)

/-- C6: starting from an empty request store, every sequence of registry
operations (send / accept / reject / cancel / expiry sweep) maintains at
most one active (pending or accepted) request per unordered user pair; and
whenever an active request already exists between two users, `sendRequest`
returns the conflict error and leaves the store unchanged. -/
theorem at_most_one_active_request_per_pair (ops : List ReqOp)
    (db : List MessageRequest) (s r : Nat) (anon : Bool) (exp : Nat) (env : SendReqEnv)
    (hneq : (s == r) = false) (hrec : env.recipientActive = true)
    (hbl : env.blocked = false) (hex : existsBetweenUsers db s r = true) :
    pairInvariant (applyReqOps ops []) ∧
    sendRequest db s r anon exp env = (db, some .conflict) := by
  constructor
  · exact applyReqOps_preserves ops []
      (fun u1 u2 => by simp [activeCount])
  · unfold sendRequest
    simp [hneq, hrec, hbl, hex]

/-- Witness for C6: with a pending request from 1 to 2 already stored, a
second `sendRequest` between the same pair conflicts. -/
theorem at_most_one_active_request_per_pair_witness :
    sendRequest [{ sender := 1, recipient := 2, expiresAt := 50 }] 1 2 true 50
      { dailyFreeLimit := 3, todayRequests := 0 } =
      ([{ sender := 1, recipient := 2, expiresAt := 50 }], some .conflict) := by
  exact (at_most_one_active_request_per_pair []
    [{ sender := 1, recipient := 2, expiresAt := 50 }] 1 2 true 50
    { dailyFreeLimit := 3, todayRequests := 0 } rfl rfl rfl (by decide)).2

end Bibbly
